import Mathlib

/-!
Verification of the cognitive core of the airi-minecraft agent.

Shallow embedding of the TypeScript sources:
* `LeakyBucket` from `src/cognitive/perception/raw-event-buffer.ts` (arithmetic
  over exact rationals);
* `EventManager` (the event bus) from the same file;
* `RawEventBuffer` / `PerceptionPipeline` from the same file;
* `createCancellationToken` from `src/cognitive/conscious/task-state.ts`;
* `TaskManager` from `src/cognitive/conscious/task-manager.ts`;
* the `Orchestrator` dispatch logic (`handleUserIntent`,
  `shouldCancelCurrentTask`, `processNextQueuedEvent`);
* `ReflexManager.handleUserIntent` from `src/cognitive/reflex/reflex-manager.ts`
  and the `handled` guard of the conscious layer (`Brain.init`);
* `TaskExecutor.executePlan` / `TaskExecutor.executeActions` and the bounded
  retry loop of the orchestrator around `executePlan`.

External effects (the world adapter, the reasoning oracle, logging) are
parameters of the embedded functions; control flow is translated verbatim.
-/

namespace AiriMC

/-! ## Leaky bucket (`raw-event-buffer.ts`, class `LeakyBucket`)

The source stores `value`, `capacity`, `leakPerMs = leakPerSecond / 1000` and
`trigger` as JavaScript numbers; the embedding uses exact rationals. -/

/-- JavaScript `Math.min` on the exact rationals. -/
def qmin (a b : ℚ) : ℚ := if a ≤ b then a else b

/-- JavaScript `Math.max` on the exact rationals. -/
def qmax (a b : ℚ) : ℚ := if b ≤ a then a else b

structure LeakyBucket where
  value : ℚ
  capacity : ℚ
  leakPerMs : ℚ
  trigger : ℚ
deriving DecidableEq

/-- Constructor: `new LeakyBucket({capacity, leakPerSecond, trigger})`. -/
def LeakyBucket.init (capacity leakPerSecond trigger : ℚ) : LeakyBucket :=
  { value := 0, capacity := capacity, leakPerMs := leakPerSecond / 1000, trigger := trigger }

/-- `tick(deltaMs)`: no-op for `deltaMs <= 0`, otherwise leak and floor at 0. -/
def LeakyBucket.tick (b : LeakyBucket) (deltaMs : ℚ) : LeakyBucket :=
  if deltaMs ≤ 0 then b
  else { b with value := qmax 0 (b.value - b.leakPerMs * deltaMs) }

/-- The record returned by `add`. -/
structure AddResult where
  fired : Bool
  value : ℚ
deriving DecidableEq

/-- `add(amount)`: `next = min(capacity, value + amount)`,
`fired = (value < trigger) && (next >= trigger)`, then commit `value = next`.
Returns the result record together with the updated bucket. -/
def LeakyBucket.add (b : LeakyBucket) (amount : ℚ) : AddResult × LeakyBucket :=
  let next := qmin b.capacity (b.value + amount)
  let fired := decide (b.value < b.trigger) && decide (b.trigger ≤ next)
  ({ fired := fired, value := next }, { b with value := next })

/-! ## Event bus (`raw-event-buffer.ts`, class `EventManager`) -/

/-- Event kinds (`EventCategory` in `cognitive/types.ts` plus `user_intent`
from the sibling `EventType`). The wildcard channel is not an event kind. -/
inductive EventKind
  | user_intent
  | stimulus
  | perception
  | feedback
  | world_update
  | system_alert
deriving DecidableEq

/-- A subscription channel: a concrete kind or the wildcard. -/
inductive Channel
  | kind (k : EventKind)
  | wildcard
deriving DecidableEq

/-- One registered subscriber, identified by its registration id. -/
structure Subscriber where
  channel : Channel
  sid : Nat
deriving DecidableEq

/-- Abstract view of a `BotEvent`: the fields the embedded logic reads. -/
structure UIEvent where
  kind : EventKind
  content : String
  priority : Option Nat
  handled : Bool
  hasReply : Bool
deriving DecidableEq

/-- `if (!event.priority) { event.priority = 0 }` — an absent priority and the
falsy priority `0` are both replaced by `0`. -/
def setDefaultPriority (ev : UIEvent) : UIEvent :=
  match ev.priority with
  | none => { ev with priority := some 0 }
  | some 0 => { ev with priority := some 0 }
  | some _ => ev

/-- `emit`: default the priority, then deliver to every subscriber of the
event kind (in registration order) and then to every wildcard subscriber
(in registration order). Returns the delivered event and the delivery order
as the list of subscriber ids. -/
def emit (subs : List Subscriber) (ev : UIEvent) : UIEvent × List Nat :=
  let ev2 := setDefaultPriority ev
  let kindSubs := subs.filter fun s => s.channel = Channel.kind ev.kind
  let wildSubs := subs.filter fun s => s.channel = Channel.wildcard
  (ev2, (kindSubs ++ wildSubs).map Subscriber.sid)

/-! ## Cancellation token (`task-state.ts`, `createCancellationToken`)

Callbacks are identified by numbers; `invocationLog` records every callback
invocation, in order, so double invocation is observable. -/

structure CancellationToken where
  isCancelled : Bool
  callbacks : List Nat
  invocationLog : List Nat
deriving DecidableEq

/-- A fresh token: not cancelled, no callbacks registered. -/
def CancellationToken.new : CancellationToken :=
  { isCancelled := false, callbacks := [], invocationLog := [] }

/-- `onCancelled(callback)`: register a callback. -/
def CancellationToken.onCancelled (t : CancellationToken) (cb : Nat) : CancellationToken :=
  { t with callbacks := t.callbacks ++ [cb] }

/-- `cancel()`: set the flag and run every registered callback.  The source has
no guard against repeated cancellation: the callbacks run on every call. -/
def CancellationToken.cancel (t : CancellationToken) : CancellationToken :=
  { t with isCancelled := true, invocationLog := t.invocationLog ++ t.callbacks }

/-! ## Task manager (`task-manager.ts`, single current task) -/

inductive TaskStatus
  | idle
  | planning
  | executing
  | responding
  | cancelling
deriving DecidableEq

structure TaskContext where
  tid : Nat
  status : TaskStatus
  token : CancellationToken
deriving DecidableEq

/-- `TaskManager` state: the current task, the bounded history, and the id
counter standing in for `generateTaskId`. -/
structure TaskManagerState where
  currentTask : Option TaskContext
  taskHistory : List TaskContext
  nextId : Nat
deriving DecidableEq

def maxHistorySize : Nat := 10

/-- `addToHistory`: push, evicting the oldest entry beyond the size bound. -/
def TaskManagerState.addToHistory (s : TaskManagerState) (t : TaskContext) : TaskManagerState :=
  let h := s.taskHistory ++ [t]
  { s with taskHistory := if maxHistorySize < h.length then h.tail else h }

/-- `createTask(goal)`: fresh id, status `idle`, fresh token; becomes current. -/
def TaskManagerState.createTask (s : TaskManagerState) : TaskContext × TaskManagerState :=
  let t : TaskContext := { tid := s.nextId, status := .idle, token := .new }
  (t, { s with currentTask := some t, nextId := s.nextId + 1 })

/-- `cancelCurrentTask(reason)`: if a current task exists, set its status to
`cancelling`, cancel its token, archive it, and clear the current slot. -/
def TaskManagerState.cancelCurrentTask (s : TaskManagerState) : TaskManagerState :=
  match s.currentTask with
  | none => s
  | some t =>
    let t2 : TaskContext := { t with status := .cancelling, token := t.token.cancel }
    TaskManagerState.addToHistory { s with currentTask := none } t2

/-- `completeCurrentTask()`: archive the current task and clear the slot. -/
def TaskManagerState.completeCurrentTask (s : TaskManagerState) : TaskManagerState :=
  match s.currentTask with
  | none => s
  | some t => TaskManagerState.addToHistory { s with currentTask := none } t

/-! ## Orchestrator dispatch (`handleUserIntent`, `shouldCancelCurrentTask`,
`processNextQueuedEvent`) -/

/-- Messages the orchestrator and reflex layer send, by content. -/
inductive MsgId
  | greetingReply
  | busyReply
  | errorReply
deriving DecidableEq

/-- An outgoing message: through the event's reply sink or broadcast chat. -/
inductive Outgoing
  | replySink (m : MsgId)
  | broadcastChat (m : MsgId)
deriving DecidableEq

/-- Orchestrator state: task bookkeeping, the deferred-event queue, and the
log of outgoing messages. -/
structure OrchState where
  tasks : TaskManagerState
  eventQueue : List UIEvent
  sent : List Outgoing
deriving DecidableEq

/-- What `handleUserIntent` decided to do with an incoming event. -/
inductive Decision
  | inhibited
  | queued
  | started (tid : Nat)
deriving DecidableEq

/-- `shouldCancelCurrentTask`: `(event.priority ?? 5) >= 8`. -/
def shouldCancelCurrentTask (ev : UIEvent) : Bool :=
  8 ≤ ev.priority.getD 5

/-- The synchronous dispatch portion of `Orchestrator.handleUserIntent`:
inhibition check, then either preemption of the current task, queueing of the
event (with a busy message), or creation of a new current task. -/
def handleUserIntentEntry (s : OrchState) (ev : UIEvent) : OrchState × Decision :=
  if ev.handled then (s, .inhibited)
  else
    match s.tasks.currentTask with
    | some _ =>
      if shouldCancelCurrentTask ev then
        let tasks2 := s.tasks.cancelCurrentTask
        let (t, tasks3) := tasks2.createTask
        ({ s with tasks := tasks3 }, .started t.tid)
      else
        let out := if ev.hasReply then Outgoing.replySink .busyReply
                   else Outgoing.broadcastChat .busyReply
        ({ s with eventQueue := s.eventQueue ++ [ev], sent := s.sent ++ [out] }, .queued)
    | none =>
      let (t, tasks2) := s.tasks.createTask
      ({ s with tasks := tasks2 }, .started t.tid)

/-- `processNextQueuedEvent`: when not already processing the queue, pop the
head of the queue (the popped event is then fed back to `handleUserIntent`). -/
def processNextQueuedEvent (s : OrchState) (isProcessingQueue : Bool) :
    OrchState × Option UIEvent :=
  if isProcessingQueue then (s, none)
  else
    match s.eventQueue with
    | [] => (s, none)
    | e :: rest => ({ s with eventQueue := rest }, some e)

/-! ## Reflex layer (`reflex-manager.ts`) and the conscious `handled` guard -/

/-- JavaScript `toLowerCase` (character-wise lowering). -/
def jsToLower (s : String) : String := String.mk (s.data.map Char.toLower)

/-- JavaScript `trim`: strip leading and trailing whitespace. -/
def jsTrim (s : String) : String :=
  String.mk (((s.data.dropWhile Char.isWhitespace).reverse.dropWhile Char.isWhitespace).reverse)

/-- The greeting pattern: `content.toLowerCase().trim()` equals `hi` or
`hello`. -/
def isGreeting (content : String) : Bool :=
  let lowerContent := jsTrim (jsToLower content)
  lowerContent == "hi" || lowerContent == "hello"

/-- `ReflexManager.handleUserIntent`: on a greeting, reply immediately
(through the reply sink when present, else broadcast chat) and set
`handled = true`; otherwise leave the event untouched. -/
def reflexHandleUserIntent (ev : UIEvent) : UIEvent × List Outgoing :=
  if isGreeting ev.content then
    ({ ev with handled := true },
     [if ev.hasReply then Outgoing.replySink .greetingReply
      else Outgoing.broadcastChat .greetingReply])
  else (ev, [])

/-- The stimulus handler installed by `Brain.init`: a handled event is
ignored; otherwise the event is enqueued and `processQueue` runs, starting a
decision turn unless one is already in progress.  Returns the new decision
queue and whether a decision turn was started. -/
def brainOnStimulus (isProcessing : Bool) (queue : List UIEvent) (ev : UIEvent) :
    List UIEvent × Bool :=
  if ev.handled then (queue, false)
  else (queue ++ [ev], !isProcessing)

/-! ## Plan execution engine (`task-executor.ts`, part of the action layer) -/

/-- `ActionErrorCode` from `utils/errors.ts`. -/
inductive ActionErrorCode
  | RESOURCE_MISSING
  | CRAFTING_FAILED
  | NAVIGATION_FAILED
  | INTERRUPTED
  | INVENTORY_FULL
  | UNKNOWN
deriving DecidableEq

/-- An error escaping `executePlan`: a typed `ActionError`, any other thrown
error, or the not-initialized guard. -/
inductive ExecError
  | actionErr (code : ActionErrorCode)
  | systemErr
  | notInitialized
deriving DecidableEq

/-- `error instanceof ActionError`. -/
def isActionError : ExecError → Bool
  | .actionErr _ => true
  | _ => false

inductive PlanStatus
  | pending
  | in_progress
  | completed
  | failed
  | cancelled
deriving DecidableEq

/-- A plan step; its content is consumed by the external action agent, so only
an identity is kept. -/
structure PlanStep where
  stepId : Nat
deriving DecidableEq

structure Plan where
  steps : List PlanStep
  status : PlanStatus
  requiresAction : Bool
deriving DecidableEq

/-- Outcome of `actionAgent.performAction(step)` for one step. -/
inductive StepOutcome
  | success
  | actionFailure (code : ActionErrorCode)
  | otherFailure
deriving DecidableEq

/-- The step loop of `executePlan`, inside the try/catch: before step `i` the
token is polled (`cancelled` exit); a throwing step ends the loop (both the
fail-fast branch for `RESOURCE_MISSING`/`CRAFTING_FAILED`/`INVENTORY_FULL`
and the unconditional re-throw after it propagate the same error, so the
distinction is invisible in the result).  Returns the final plan status and
the escaped error, if any. -/
def execSteps (perform : Nat → StepOutcome) (cancelledBefore : Nat → Bool) :
    Nat → List PlanStep → PlanStatus × Option ExecError
  | _, [] => (.completed, none)
  | i, _ :: rest =>
    if cancelledBefore i then (.cancelled, none)
    else
      match perform i with
      | .success => execSteps perform cancelledBefore (i + 1) rest
      | .actionFailure c => (.failed, some (.actionErr c))
      | .otherFailure => (.failed, some .systemErr)

/-- `TaskExecutor.executePlan(plan, cancellationToken)`: throws when not
initialized; returns without touching the plan when `requiresAction` is
false; otherwise sets `in_progress`, runs the steps, and commits the final
status (`completed`, `cancelled`, or — in the catch — `failed`). -/
def executePlan (initialized : Bool) (perform : Nat → StepOutcome)
    (cancelledBefore : Nat → Bool) (plan : Plan) : Plan × Option ExecError :=
  if ¬ initialized then (plan, some .notInitialized)
  else if ¬ plan.requiresAction then (plan, none)
  else
    let r := execSteps perform cancelledBefore 0 plan.steps
    ({ plan with status := r.1 }, r.2)

/-! ## Ad-hoc action batches (`TaskExecutor.executeActions`) -/

/-- An instruction in a batch: a physical step or a chat message. -/
inductive ActionInstruction
  | physical
  | chat
deriving DecidableEq

/-- Events emitted by `executeActions`, tagged by instruction index. -/
inductive ActionEvent
  | startedEv (i : Nat)
  | completedEv (i : Nat)
  | failedEv (i : Nat)
deriving DecidableEq

def ActionEvent.index : ActionEvent → Nat
  | .startedEv i => i
  | .completedEv i => i
  | .failedEv i => i

/-- One `forEach` callback of `executeActions`: if the token is already
cancelled when the dispatch begins, return silently (no events); otherwise
emit `action:started` and then `action:completed` or `action:failed`. -/
def runOne (cancelledAt fine : Nat → Bool) (i : Nat) : List ActionEvent :=
  if cancelledAt i then []
  else .startedEv i :: (if fine i then [.completedEv i] else [.failedEv i])

/-- `TaskExecutor.executeActions(actions, cancellationToken)`: throws when not
initialized, otherwise dispatches every instruction independently.
`cancelledAt i` is the token state when instruction `i`'s dispatch begins and
`fine i` tells whether its execution succeeds. -/
def executeActions (initialized : Bool) (actions : List ActionInstruction)
    (cancelledAt fine : Nat → Bool) : Option (List ActionEvent) :=
  if initialized then
    some ((List.range actions.length).flatMap (runOne cancelledAt fine))
  else none

/-- The feedback edge: `Brain.init` subscribes to `action:completed` and
`action:failed` and enqueues a feedback event for each; `action:started`
produces none.  Returns the instruction indices that generate feedback. -/
def feedbackIndices (events : List ActionEvent) : List Nat :=
  events.filterMap fun e =>
    match e with
    | .startedEv _ => none
    | .completedEv i => some i
    | .failedEv i => some i

/-! ## Bounded retry around `executePlan` (the orchestrator's
`executeTaskWithCancellation` execution phase) -/

/-- Result of the execution phase: the loop broke out on success, an error was
re-thrown, or a cancellation checkpoint returned.  `attempts` counts the
`executePlan` invocations made. -/
inductive RetryResult
  | success (plan : Plan) (attempts : Nat)
  | thrown (e : ExecError) (plan : Plan) (attempts : Nat)
  | cancelledExit (attempts : Nat)
deriving DecidableEq

def RetryResult.attemptsMade : RetryResult → Nat
  | .success _ n => n
  | .thrown _ _ n => n
  | .cancelledExit n => n

def MAX_RETRIES : Nat := 3

/-- `adjustPlan` (planning agent): re-plans with the failure as feedback; the
new steps come from the oracle (`adjustSteps`), the status is reset to
`pending` and `requiresAction` is true. -/
def adjustPlan (adjustSteps : List PlanStep → List PlanStep) (plan : Plan) : Plan :=
  { steps := adjustSteps plan.steps, status := .pending, requiresAction := true }

/-- The `while (retryCount < MAX_RETRIES)` loop: poll the token, run
`executePlan` (attempt-indexed), break on success; on an error poll the token
again, re-throw a non-`ActionError` at once, increment `retryCount`, re-throw
when the bound is reached, otherwise re-plan and loop.  `fuel` is
`MAX_RETRIES - retryCount`; the `fuel = 0` case is the normal loop-condition
exit. -/
def retryLoop (execOnce : Nat → Plan → Plan × Option ExecError)
    (adjust : Plan → Plan) (cancelledPre cancelledPost : Nat → Bool) :
    Nat → Nat → Plan → RetryResult
  | 0, attempt, plan => .success plan attempt
  | fuel + 1, attempt, plan =>
    if cancelledPre attempt then .cancelledExit attempt
    else
      match execOnce attempt plan with
      | (plan2, none) => .success plan2 (attempt + 1)
      | (plan2, some e) =>
        if cancelledPost attempt then .cancelledExit (attempt + 1)
        else if ¬ isActionError e then .thrown e plan2 (attempt + 1)
        else
          match fuel with
          | 0 => .thrown e plan2 (attempt + 1)
          | fuel2 + 1 =>
            retryLoop execOnce adjust cancelledPre cancelledPost
              (fuel2 + 1) (attempt + 1) (adjust plan2)

/-- The execution phase of `executeTaskWithCancellation`: plans that require
action go through the bounded retry loop; others skip execution.
`perform a` and `cancelledStep a` describe attempt `a`'s step outcomes and
token polls inside `executePlan`. -/
def executionPhase (perform : Nat → Nat → StepOutcome)
    (cancelledStep : Nat → Nat → Bool) (adjustSteps : List PlanStep → List PlanStep)
    (cancelledPre cancelledPost : Nat → Bool) (plan : Plan) : RetryResult :=
  if plan.requiresAction then
    retryLoop (fun a p => executePlan true (perform a) (cancelledStep a) p)
      (adjustPlan adjustSteps) cancelledPre cancelledPost MAX_RETRIES 0 plan
  else .success plan 0

/-! ## Perception pipeline (`raw-event-buffer.ts`, `RawEventBuffer` and
`PerceptionPipeline`) -/

/-- Raw perception events are opaque here; only identity matters. -/
abbrev RawEvent := Nat

structure RawEventBuffer where
  queue : List RawEvent
deriving DecidableEq

def RawEventBuffer.push (b : RawEventBuffer) (e : RawEvent) : RawEventBuffer :=
  { queue := b.queue ++ [e] }

/-- `drain()`: return the whole queue and clear it, in one step. -/
def RawEventBuffer.drain (b : RawEventBuffer) : List RawEvent × RawEventBuffer :=
  if b.queue.isEmpty then ([], b)
  else (b.queue, { queue := [] })

/-- The `for` loop of `tick` over the drained events: each ingest call is
wrapped in a try/catch (`.error` carries the detector state at the throw, the
error is logged) and the loop always continues with the next event.  Returns
the final detector state and the list of events on which `ingest` was
invoked, in order. -/
def ingestLoop {σ : Type} (ingestOne : σ → RawEvent → Except σ σ) :
    σ → List RawEvent → List RawEvent → σ × List RawEvent
  | st, attempted, [] => (st, attempted)
  | st, attempted, e :: rest =>
    let st2 := match ingestOne st e with
      | .ok s => s
      | .error s => s
    ingestLoop ingestOne st2 (attempted ++ [e]) rest

/-- `PerceptionPipeline` state: the `initialized` flag, the raw-event buffer
and the attention-detector state. -/
structure PerceptionPipeline (σ : Type) where
  initialized : Bool
  buffer : RawEventBuffer
  det : σ

/-- `collect(event)`: a no-op before `init()`, otherwise buffer the event. -/
def PerceptionPipeline.collect {σ : Type} (p : PerceptionPipeline σ) (e : RawEvent) :
    PerceptionPipeline σ :=
  if ¬ p.initialized then p else { p with buffer := p.buffer.push e }

/-- `tick(deltaMs)`: a no-op before `init()`; otherwise forward decay to the
detector, drain the buffer, and ingest each drained event with per-event
fault isolation.  Also returns the list of ingested events. -/
def PerceptionPipeline.tick {σ : Type} (tickDet : σ → σ)
    (ingestOne : σ → RawEvent → Except σ σ) (p : PerceptionPipeline σ) :
    PerceptionPipeline σ × List RawEvent :=
  if ¬ p.initialized then (p, [])
  else
    let det2 := tickDet p.det
    let r := p.buffer.drain
    let r2 := ingestLoop ingestOne det2 [] r.1
    ({ p with buffer := r.2, det := r2.1 }, r2.2)

/-! # Theorems -/

/-- C4: `LeakyBucket.add(amount)` computes `next = min(capacity, value +
amount)`, fires exactly on an upward crossing of `trigger` (`fired =
(value < trigger) && (next >= trigger)`), and in particular never fires again
while the value stays at or above the trigger; `tick(deltaMs)` is a no-op for
`deltaMs <= 0` and otherwise subtracts `leakPerMs * deltaMs` floored at 0; and
the capacity-10, leak-2-per-second, trigger-3 bucket runs the documented
sequence `add(3); add(0.001); tick(1000); add(2)` producing
`(fired true, 3)`, `(fired false, 3.001)`, value `1.001`, and
`(fired true, 3.001)`. -/
theorem C4_leaky_bucket_contract :
    (∀ (b : LeakyBucket) (amount : ℚ), b.trigger ≤ b.value →
      (b.add amount).1.fired = false)
    ∧ (∀ (b : LeakyBucket) (amount : ℚ),
        (b.add amount).1.value = qmin b.capacity (b.value + amount)
        ∧ (b.add amount).2.value = qmin b.capacity (b.value + amount)
        ∧ ((b.add amount).1.fired = true ↔
            b.value < b.trigger ∧ b.trigger ≤ qmin b.capacity (b.value + amount)))
    ∧ (∀ (b : LeakyBucket) (deltaMs : ℚ), deltaMs ≤ 0 → b.tick deltaMs = b)
    ∧ (∀ (b : LeakyBucket) (deltaMs : ℚ), 0 < deltaMs →
        (b.tick deltaMs).value = qmax 0 (b.value - b.leakPerMs * deltaMs)
        ∧ 0 ≤ (b.tick deltaMs).value)
    ∧ ((LeakyBucket.init 10 2 3).add 3).1 = ⟨true, 3⟩
    ∧ (((LeakyBucket.init 10 2 3).add 3).2.add (1/1000)).1 = ⟨false, 3001/1000⟩
    ∧ ((((LeakyBucket.init 10 2 3).add 3).2.add (1/1000)).2.tick 1000).value = 1001/1000
    ∧ (((((LeakyBucket.init 10 2 3).add 3).2.add (1/1000)).2.tick 1000).add 2).1
        = ⟨true, 3001/1000⟩ := by
  refine ⟨?_, ?_, ?_, ?_, ?_, ?_, ?_, ?_⟩
  · intro b amount h
    have h2 : ¬ (b.value < b.trigger) := not_lt.mpr h
    simp [LeakyBucket.add, h2]
  · intro b amount
    refine ⟨rfl, rfl, ?_⟩
    simp [LeakyBucket.add]
  · intro b deltaMs h
    simp [LeakyBucket.tick, h]
  · intro b deltaMs h
    have h2 : ¬ (deltaMs ≤ 0) := not_le.mpr h
    refine ⟨by simp [LeakyBucket.tick, h2], ?_⟩
    simp only [LeakyBucket.tick, h2, if_false, qmax]
    split
    · exact le_refl 0
    · linarith [not_le.mp (by assumption : ¬ (b.value - b.leakPerMs * deltaMs ≤ 0))]
  · norm_num [LeakyBucket.init, LeakyBucket.add, qmin]
  · norm_num [LeakyBucket.init, LeakyBucket.add, qmin]
  · norm_num [LeakyBucket.init, LeakyBucket.add, LeakyBucket.tick, qmin, qmax]
  · norm_num [LeakyBucket.init, LeakyBucket.add, LeakyBucket.tick, qmin, qmax]

/-- Witness for C4: the hypothesis-bearing conjuncts applied at concrete
buckets. -/
theorem C4_leaky_bucket_contract_witness :
    ((((LeakyBucket.init 10 2 3).add 3).2.trigger ≤ ((LeakyBucket.init 10 2 3).add 3).2.value)
      ∧ ((((LeakyBucket.init 10 2 3).add 3).2.add 5).1.fired = false))
    ∧ ((LeakyBucket.init 10 2 3).tick (-5) = LeakyBucket.init 10 2 3)
    ∧ (((LeakyBucket.init 10 2 3).tick 500).value
        = qmax 0 ((LeakyBucket.init 10 2 3).value - (LeakyBucket.init 10 2 3).leakPerMs * 500)) := by
  have h1 : ((LeakyBucket.init 10 2 3).add 3).2.trigger ≤ ((LeakyBucket.init 10 2 3).add 3).2.value := by
    norm_num [LeakyBucket.init, LeakyBucket.add, qmin]
  exact ⟨⟨h1, C4_leaky_bucket_contract.1 _ 5 h1⟩,
    C4_leaky_bucket_contract.2.2.1 _ (-5) (by norm_num),
    (C4_leaky_bucket_contract.2.2.2.1 _ 500 (by norm_num)).1⟩

/-- C6 (amended): `emit` on an event with no explicit priority delivers it
with `priority = 0`; every subscriber of the event's kind and every wildcard
subscriber receives the delivered event exactly once (and nobody else
receives it); the delivery order is all kind subscribers in their
registration order followed by all wildcard subscribers in their
registration order (not the global registration order — see the
counterexample). -/
theorem C6_emit_default_priority_and_exactly_once :
    (∀ (subs : List Subscriber) (ev : UIEvent), ev.priority = none →
      (emit subs ev).1.priority = some 0)
    ∧ (∀ (subs : List Subscriber) (ev : UIEvent),
        (subs.map Subscriber.sid).Nodup →
        ∀ s ∈ subs,
          List.count s.sid (emit subs ev).2
            = (if s.channel = Channel.kind ev.kind ∨ s.channel = Channel.wildcard
               then 1 else 0))
    ∧ (∀ (subs : List Subscriber) (ev : UIEvent),
        (emit subs ev).2
          = ((subs.filter fun t => t.channel = Channel.kind ev.kind).map Subscriber.sid)
            ++ ((subs.filter fun t => t.channel = Channel.wildcard).map Subscriber.sid)) := by
  refine ⟨?_, ?_, fun subs ev => by simp [emit]⟩
  · intro subs ev h
    simp [emit, setDefaultPriority, h]
  · intro subs ev hnd s hs
    have hinj := List.inj_on_of_nodup_map hnd
    have hcount : ∀ p : Subscriber → Bool,
        List.count s.sid ((subs.filter p).map Subscriber.sid)
          = (if p s then 1 else 0) := by
      intro p
      by_cases hp : p s
      · have hmem : s ∈ subs.filter p := List.mem_filter.mpr ⟨hs, hp⟩
        have hnd2 : ((subs.filter p).map Subscriber.sid).Nodup :=
          List.Nodup.sublist ((List.filter_sublist subs).map Subscriber.sid) hnd
        rw [if_pos hp]
        exact List.count_eq_one_of_mem hnd2 (List.mem_map.mpr ⟨s, hmem, rfl⟩)
      · rw [if_neg hp]
        rw [List.count_eq_zero]
        intro hmem
        rcases List.mem_map.mp hmem with ⟨t, htmem, hteq⟩
        rcases List.mem_filter.mp htmem with ⟨htsubs, htp⟩
        have : t = s := hinj htsubs hs hteq
        rw [this] at htp
        exact hp htp
    have hd : (emit subs ev).2
        = ((subs.filter fun t => t.channel = Channel.kind ev.kind).map Subscriber.sid)
          ++ ((subs.filter fun t => t.channel = Channel.wildcard).map Subscriber.sid) := by
      simp [emit]
    rw [hd, List.count_append, hcount, hcount]
    by_cases h1 : s.channel = Channel.kind ev.kind
    · have h2 : ¬ (s.channel = Channel.wildcard) := by
        rw [h1]; intro hcontra; exact Channel.noConfusion hcontra
      simp [h1, h2]
    · by_cases h2 : s.channel = Channel.wildcard
      · simp [h1, h2]
      · simp [h1, h2]

/-- Witness for C6: a two-subscriber bus in which the kind subscriber and the
wildcard subscriber each receive the event exactly once. -/
theorem C6_emit_default_priority_and_exactly_once_witness :
    (emit [⟨Channel.kind .user_intent, 0⟩, ⟨Channel.wildcard, 1⟩]
      { kind := .user_intent, content := "", priority := none,
        handled := false, hasReply := false }).1.priority = some 0
    ∧ List.count 0 (emit [⟨Channel.kind .user_intent, 0⟩, ⟨Channel.wildcard, 1⟩]
      { kind := .user_intent, content := "", priority := none,
        handled := false, hasReply := false }).2 = 1 := by
  constructor
  · exact C6_emit_default_priority_and_exactly_once.1 _ _ rfl
  · have h := C6_emit_default_priority_and_exactly_once.2.1
      [⟨Channel.kind .user_intent, 0⟩, ⟨Channel.wildcard, 1⟩]
      { kind := .user_intent, content := "", priority := none,
        handled := false, hasReply := false }
      (by decide)
      ⟨Channel.kind .user_intent, 0⟩ (by simp)
    simpa using h

/-- Counterexample for C6 as stated: with a wildcard subscriber registered
before a kind subscriber, both receive a `user_intent` event, but the
delivery order is the kind subscriber first — not the order the subscribers
were registered. -/
theorem C6_registration_order_counterexample :
    (emit [⟨Channel.wildcard, 0⟩, ⟨Channel.kind .user_intent, 1⟩]
      { kind := .user_intent, content := "", priority := none,
        handled := false, hasReply := false }).2 = [1, 0]
    ∧ ([⟨Channel.wildcard, 0⟩, ⟨Channel.kind .user_intent, 1⟩] : List Subscriber).map
        Subscriber.sid = [0, 1]
    ∧ ([1, 0] : List Nat) ≠ [0, 1] := by
  refine ⟨rfl, rfl, by decide⟩

/-- C7 counterexample: a token with one registered callback; cancelling twice
(directly on the token, exactly as `task.cancellationToken.cancel()` does)
invokes the callback a second time: the invocation log is `[0, 0]`, not the
single invocation `[0]` the claim requires. -/
theorem C7_double_cancel_counterexample :
    ((CancellationToken.new.onCancelled 0).cancel.cancel).invocationLog = [0, 0]
    ∧ ([0, 0] : List Nat) ≠ [0] := by
  exact ⟨rfl, by decide⟩

/-- C7 (amended): cancellation through `TaskManager.cancelCurrentTask` is
idempotent — the first call archives the task and clears the current slot, so
any further call finds no task and invokes nothing; but the token itself has
no reentrancy guard: a second direct `cancel()` appends every registered
callback to the invocation log again. -/
theorem C7_cancel_idempotent_amended :
    (∀ s : TaskManagerState,
      s.cancelCurrentTask.cancelCurrentTask = s.cancelCurrentTask)
    ∧ (∀ t : CancellationToken,
      t.cancel.cancel.invocationLog = t.invocationLog ++ t.callbacks ++ t.callbacks) := by
  constructor
  · intro s
    cases h : s.currentTask with
    | none => simp [TaskManagerState.cancelCurrentTask, h]
    | some t =>
      simp [TaskManagerState.cancelCurrentTask, h, TaskManagerState.addToHistory]
  · intro t
    simp [CancellationToken.cancel]

/-- C5: for every event on which the reflex layer synchronously sets
`handled = true` (a greeting), the conscious layer is a no-op on that same
event: the brain's stimulus handler neither enqueues it nor starts a decision
turn, and the orchestrator's intent handler returns inhibited with its state
untouched. -/
theorem C5_reflex_inhibits_conscious :
    ∀ (ev : UIEvent) (isProcessing : Bool) (queue : List UIEvent) (s : OrchState),
      isGreeting ev.content = true →
      (reflexHandleUserIntent ev).1.handled = true
      ∧ brainOnStimulus isProcessing queue (reflexHandleUserIntent ev).1 = (queue, false)
      ∧ handleUserIntentEntry s (reflexHandleUserIntent ev).1 = (s, .inhibited) := by
  intro ev isProcessing queue s h
  have h1 : (reflexHandleUserIntent ev).1 = { ev with handled := true } := by
    simp [reflexHandleUserIntent, h]
  refine ⟨by simp [h1], by simp [h1, brainOnStimulus], by simp [h1, handleUserIntentEntry]⟩

/-- A fresh task manager: no current task, empty history. -/
def emptyTasks : TaskManagerState := { currentTask := none, taskHistory := [], nextId := 0 }

/-- A fresh orchestrator state. -/
def emptyOrch : OrchState := { tasks := emptyTasks, eventQueue := [], sent := [] }

/-- A user-intent event with content `hi`, no explicit priority, a reply
sink, and not yet handled. -/
def hiEvent : UIEvent :=
  { kind := .user_intent, content := "hi", priority := none, handled := false, hasReply := true }

/-- Witness for C5: the event with content `hi` is reflex-handled, and the
conscious layer leaves its queue and task state untouched. -/
theorem C5_reflex_inhibits_conscious_witness :
    isGreeting "hi" = true
    ∧ brainOnStimulus false [] (reflexHandleUserIntent hiEvent).1 = ([], false)
    ∧ handleUserIntentEntry emptyOrch (reflexHandleUserIntent hiEvent).1
        = (emptyOrch, .inhibited) := by
  have hg : isGreeting "hi" = true := by decide
  have h := C5_reflex_inhibits_conscious hiEvent false [] emptyOrch hg
  exact ⟨hg, h.2.1, h.2.2⟩

/-- The task handed to `addToHistory` is afterwards in the history, even when
the size bound evicts the oldest entry. -/
theorem mem_addToHistory (s : TaskManagerState) (t : TaskContext) :
    t ∈ (s.addToHistory t).taskHistory := by
  unfold TaskManagerState.addToHistory
  dsimp only
  by_cases hlen : maxHistorySize < (s.taskHistory ++ [t]).length
  · rw [if_pos hlen]
    match hsh : s.taskHistory with
    | [] =>
      rw [hsh] at hlen
      simp [maxHistorySize] at hlen
    | x :: rest => simp
  · rw [if_neg hlen]
    simp

/-- C8: an unhandled event whose priority meets or exceeds the threshold 8
while a current (primary) task is active cancels that task — its status
becomes `cancelling`, its token's `cancel()` runs, and it is archived into
history — and a fresh task is created and becomes the current task; an event
below the threshold never triggers this cancellation (the current task and
its token are left untouched and the event is deferred instead). -/
theorem C8_high_priority_preemption :
    ∀ (s : OrchState) (t : TaskContext) (ev : UIEvent),
      s.tasks.currentTask = some t →
      ev.handled = false →
      ((8 ≤ ev.priority.getD 5 →
        (handleUserIntentEntry s ev).2 = .started s.tasks.nextId
        ∧ (handleUserIntentEntry s ev).1.tasks.currentTask
            = some { tid := s.tasks.nextId, status := .idle, token := .new }
        ∧ ({ t with status := .cancelling, token := t.token.cancel } : TaskContext)
            ∈ (handleUserIntentEntry s ev).1.tasks.taskHistory
        ∧ (t.token.cancel).isCancelled = true
        ∧ (handleUserIntentEntry s ev).1.eventQueue = s.eventQueue)
      ∧ (ev.priority.getD 5 < 8 →
        (handleUserIntentEntry s ev).2 = .queued
        ∧ (handleUserIntentEntry s ev).1.tasks = s.tasks
        ∧ (handleUserIntentEntry s ev).1.eventQueue = s.eventQueue ++ [ev])) := by
  intro s t ev hcur hh
  constructor
  · intro hp
    have hb : shouldCancelCurrentTask ev = true := by
      simp [shouldCancelCurrentTask, hp]
    have hstep : handleUserIntentEntry s ev
        = ({ s with tasks := (s.tasks.cancelCurrentTask.createTask).2 },
           .started (s.tasks.cancelCurrentTask.createTask).1.tid) := by
      simp [handleUserIntentEntry, hh, hcur, hb]
    have hcancel : s.tasks.cancelCurrentTask
        = TaskManagerState.addToHistory { s.tasks with currentTask := none }
            { t with status := .cancelling, token := t.token.cancel } := by
      simp [TaskManagerState.cancelCurrentTask, hcur]
    have hnext : s.tasks.cancelCurrentTask.nextId = s.tasks.nextId := by
      rw [hcancel]
      simp [TaskManagerState.addToHistory]
    refine ⟨?_, ?_, ?_, rfl, ?_⟩
    · rw [hstep]
      simp [TaskManagerState.createTask, hnext]
    · rw [hstep]
      simp [TaskManagerState.createTask, hnext]
    · rw [hstep]
      simp only [TaskManagerState.createTask]
      rw [hcancel]
      exact mem_addToHistory _ _
    · rw [hstep]
  · intro hp
    have hb : shouldCancelCurrentTask ev = false := by
      simp [shouldCancelCurrentTask]
      exact hp
    have hstep : handleUserIntentEntry s ev
        = ({ s with
              eventQueue := s.eventQueue ++ [ev],
              sent := s.sent ++ [if ev.hasReply then Outgoing.replySink .busyReply
                else Outgoing.broadcastChat .busyReply] }, .queued) := by
      simp [handleUserIntentEntry, hh, hcur, hb]
    rw [hstep]
    exact ⟨rfl, rfl, rfl⟩

/-- A task that is executing, with one registered cancellation callback. -/
def executingTask : TaskContext :=
  { tid := 0, status := .executing, token := CancellationToken.new.onCancelled 7 }

/-- An orchestrator state in which `executingTask` is the primary task. -/
def busyOrch : OrchState :=
  { tasks := { currentTask := some executingTask, taskHistory := [], nextId := 1 },
    eventQueue := [], sent := [] }

/-- A priority-9 unhandled user-intent event. -/
def urgentEvent : UIEvent :=
  { kind := .user_intent, content := "stop", priority := some 9,
    handled := false, hasReply := true }

/-- A priority-5 unhandled user-intent event. -/
def normalEvent : UIEvent :=
  { kind := .user_intent, content := "build a house", priority := some 5,
    handled := false, hasReply := true }

/-- Witness for C8: the priority-9 event preempts `executingTask` (it is
archived as cancelling with its callback run) and promotes a fresh task; the
priority-5 event leaves it untouched. -/
theorem C8_high_priority_preemption_witness :
    ((handleUserIntentEntry busyOrch urgentEvent).2 = .started 1
      ∧ ({ executingTask with
            status := .cancelling,
            token := executingTask.token.cancel } : TaskContext)
          ∈ (handleUserIntentEntry busyOrch urgentEvent).1.tasks.taskHistory)
    ∧ ((handleUserIntentEntry busyOrch normalEvent).2 = .queued
      ∧ (handleUserIntentEntry busyOrch normalEvent).1.tasks = busyOrch.tasks) := by
  have h9 := C8_high_priority_preemption busyOrch executingTask urgentEvent rfl rfl
  have h5 := C8_high_priority_preemption busyOrch executingTask normalEvent rfl rfl
  have ha := h9.1 (by norm_num [urgentEvent])
  have hb := h5.2 (by norm_num [normalEvent])
  exact ⟨⟨ha.1, ha.2.2.1⟩, ⟨hb.1, hb.2.1⟩⟩

/-- C3 counterexample: with a primary task active and an unhandled
priority-5 event arriving, `handleUserIntent` pushes the event onto the
deferred-event queue — it is queued for later execution, no new task is
created (the id counter is untouched), hence none is completed. -/
theorem C3_rejected_outright_counterexample :
    (handleUserIntentEntry busyOrch normalEvent).2 = .queued
    ∧ (handleUserIntentEntry busyOrch normalEvent).1.eventQueue = [normalEvent]
    ∧ ([normalEvent] : List UIEvent) ≠ []
    ∧ (handleUserIntentEntry busyOrch normalEvent).1.tasks = busyOrch.tasks := by
  refine ⟨rfl, rfl, by simp, rfl⟩

/-- C3 (amended): a user-intent event arriving while a task is active, with
priority below the high-priority threshold, is deferred, not rejected: a busy
message is sent through the event's reply sink (or broadcast chat if none),
no new task is created or completed for it, and the event is queued; once the
current task finishes, `processNextQueuedEvent` dequeues it (FIFO) and hands
it back to `handleUserIntent`. -/
theorem C3_busy_event_is_deferred :
    ∀ (s : OrchState) (t : TaskContext) (ev : UIEvent),
      s.tasks.currentTask = some t →
      ev.handled = false →
      ev.priority.getD 5 < 8 →
      (handleUserIntentEntry s ev).2 = .queued
      ∧ (handleUserIntentEntry s ev).1.eventQueue = s.eventQueue ++ [ev]
      ∧ (handleUserIntentEntry s ev).1.tasks = s.tasks
      ∧ (handleUserIntentEntry s ev).1.sent
          = s.sent ++ [if ev.hasReply then Outgoing.replySink .busyReply
            else Outgoing.broadcastChat .busyReply]
      ∧ (s.eventQueue = [] →
          processNextQueuedEvent (handleUserIntentEntry s ev).1 false
            = ({ (handleUserIntentEntry s ev).1 with eventQueue := [] }, some ev)) := by
  intro s t ev hcur hh hp
  have hb : shouldCancelCurrentTask ev = false := by
    simp [shouldCancelCurrentTask]
    exact hp
  have hstep : handleUserIntentEntry s ev
      = ({ s with
            eventQueue := s.eventQueue ++ [ev],
            sent := s.sent ++ [if ev.hasReply then Outgoing.replySink .busyReply
              else Outgoing.broadcastChat .busyReply] }, .queued) := by
    simp [handleUserIntentEntry, hh, hcur, hb]
  rw [hstep]
  refine ⟨rfl, rfl, rfl, rfl, ?_⟩
  intro hq
  simp [processNextQueuedEvent, hq]

/-- Witness for C3 (amended): the deferral of the priority-5 event behind the
executing task, including the busy reply and the later FIFO dequeue. -/
theorem C3_busy_event_is_deferred_witness :
    (handleUserIntentEntry busyOrch normalEvent).2 = .queued
    ∧ (handleUserIntentEntry busyOrch normalEvent).1.sent = [Outgoing.replySink .busyReply]
    ∧ processNextQueuedEvent (handleUserIntentEntry busyOrch normalEvent).1 false
        = ({ (handleUserIntentEntry busyOrch normalEvent).1 with eventQueue := [] },
            some normalEvent) := by
  have h := C3_busy_event_is_deferred busyOrch executingTask normalEvent rfl rfl
    (by norm_num [normalEvent])
  refine ⟨h.1, ?_, h.2.2.2.2 rfl⟩
  have h2 := h.2.2.2.1
  simpa [busyOrch, normalEvent] using h2

/-- The step loop always ends in a terminal status: `completed` after the
last step, `cancelled` at a cancellation checkpoint, `failed` when a step
throws. -/
theorem execSteps_status_terminal (perform : Nat → StepOutcome) (cb : Nat → Bool)
    (steps : List PlanStep) :
    ∀ i, (execSteps perform cb i steps).1 = .completed
      ∨ (execSteps perform cb i steps).1 = .failed
      ∨ (execSteps perform cb i steps).1 = .cancelled := by
  induction steps with
  | nil => intro i; simp [execSteps]
  | cons hd tl ih =>
    intro i
    by_cases hc : cb i = true
    · simp [execSteps, hc]
    · cases h : perform i with
      | success => simpa [execSteps, hc, h] using ih (i + 1)
      | actionFailure c => simp [execSteps, hc, h]
      | otherFailure => simp [execSteps, hc, h]

/-- C1 (amended): on an initialized executor, `executePlan` leaves a plan
with `requiresAction = true` in a terminal status — `completed`, `failed` or
`cancelled` — on every exit path (normal completion, cancellation detected
before a step, a step throwing); the `requiresAction = false` skip path
returns without touching the plan, so its status is whatever it already was
(in the running system such plans are produced by the planner already marked
`completed`). -/
theorem C1_executePlan_terminal_status :
    ∀ (perform : Nat → StepOutcome) (cb : Nat → Bool) (plan : Plan),
      (plan.requiresAction = true →
        (executePlan true perform cb plan).1.status = .completed
        ∨ (executePlan true perform cb plan).1.status = .failed
        ∨ (executePlan true perform cb plan).1.status = .cancelled)
      ∧ (plan.requiresAction = false →
        executePlan true perform cb plan = (plan, none)) := by
  intro perform cb plan
  constructor
  · intro hreq
    have h := execSteps_status_terminal perform cb plan.steps 0
    simpa [executePlan, hreq] using h
  · intro hreq
    simp [executePlan, hreq]

/-- A `requiresAction = false` plan whose status is still `pending`. -/
def skipPlan : Plan := { steps := [], status := .pending, requiresAction := false }

/-- A one-step `requiresAction = true` plan. -/
def onePlan : Plan := { steps := [⟨0⟩], status := .pending, requiresAction := true }

/-- C1 counterexample: a pending `requiresAction = false` plan passes through
`executePlan` (initialized executor, nothing cancelled, every step would
succeed) and comes back still `pending` — not one of
`completed`/`failed`/`cancelled` as the claim requires of the skip path. -/
theorem C1_skip_path_counterexample :
    (executePlan true (fun _ => .success) (fun _ => false) skipPlan).1.status = .pending
    ∧ (PlanStatus.pending ≠ .completed
        ∧ PlanStatus.pending ≠ .failed
        ∧ PlanStatus.pending ≠ .cancelled) := by
  exact ⟨rfl, by decide⟩

/-- Witness for C1 (amended): both branches applied to concrete plans. -/
theorem C1_executePlan_terminal_status_witness :
    ((executePlan true (fun _ => .success) (fun _ => false) onePlan).1.status = .completed
      ∨ (executePlan true (fun _ => .success) (fun _ => false) onePlan).1.status = .failed
      ∨ (executePlan true (fun _ => .success) (fun _ => false) onePlan).1.status = .cancelled)
    ∧ executePlan true (fun _ => .success) (fun _ => false) skipPlan = (skipPlan, none) :=
  ⟨(C1_executePlan_terminal_status (fun _ => .success) (fun _ => false) onePlan).1 rfl,
   (C1_executePlan_terminal_status (fun _ => .success) (fun _ => false) skipPlan).2 rfl⟩

/-- The retry loop never makes more than `attempt + fuel` `executePlan`
calls. -/
theorem retryLoop_attempts_le (execOnce : Nat → Plan → Plan × Option ExecError)
    (adjust : Plan → Plan) (cPre cPost : Nat → Bool) :
    ∀ (fuel attempt : Nat) (plan : Plan),
      (retryLoop execOnce adjust cPre cPost fuel attempt plan).attemptsMade
        ≤ attempt + fuel := by
  intro fuel
  induction fuel with
  | zero =>
    intro attempt plan
    simp [retryLoop, RetryResult.attemptsMade]
  | succ fuel ih =>
    intro attempt plan
    rw [retryLoop]
    by_cases hpre : cPre attempt = true
    · rw [if_pos hpre]
      show attempt ≤ attempt + (fuel + 1)
      omega
    · rw [if_neg hpre]
      cases hexec : execOnce attempt plan with
      | mk plan2 err =>
        cases err with
        | none =>
          show attempt + 1 ≤ attempt + (fuel + 1)
          omega
        | some e =>
          cases fuel with
          | zero =>
            show (if cPost attempt = true then RetryResult.cancelledExit (attempt + 1)
              else if ¬ isActionError e = true then RetryResult.thrown e plan2 (attempt + 1)
              else RetryResult.thrown e plan2 (attempt + 1)).attemptsMade ≤ attempt + (0 + 1)
            by_cases hpost : cPost attempt = true
            · rw [if_pos hpost]
              show attempt + 1 ≤ attempt + (0 + 1)
              omega
            · rw [if_neg hpost]
              by_cases hae : isActionError e = true
              · rw [if_neg (not_not_intro hae)]
                show attempt + 1 ≤ attempt + (0 + 1)
                omega
              · rw [if_pos hae]
                show attempt + 1 ≤ attempt + (0 + 1)
                omega
          | succ fuel2 =>
            show (if cPost attempt = true then RetryResult.cancelledExit (attempt + 1)
              else if ¬ isActionError e = true then RetryResult.thrown e plan2 (attempt + 1)
              else retryLoop execOnce adjust cPre cPost (fuel2 + 1) (attempt + 1)
                (adjust plan2)).attemptsMade ≤ attempt + (fuel2 + 1 + 1)
            by_cases hpost : cPost attempt = true
            · rw [if_pos hpost]
              show attempt + 1 ≤ attempt + (fuel2 + 1 + 1)
              omega
            · rw [if_neg hpost]
              by_cases hae : isActionError e = true
              · rw [if_neg (not_not_intro hae)]
                have h := ih (attempt + 1) (adjust plan2)
                omega
              · rw [if_pos hae]
                show attempt + 1 ≤ attempt + (fuel2 + 1 + 1)
                omega

/-- C2: a step failure carried by a recoverable (`ActionError`) kind makes
the orchestrator re-plan (`adjustPlan` with the failure as feedback) and
retry, bounded at `MAX_RETRIES = 3` `executePlan` attempts in total: three
recoverable failures end with the error re-thrown and the plan `failed`; two
recoverable failures followed by a success on the third attempt end
`completed` (with the plan adjusted once per failure); a non-recoverable
error is re-thrown at once — a single attempt, no re-planning; and no input
whatsoever drives the loop beyond 3 attempts. -/
theorem C2_bounded_retry_recovery :
    (∀ (c : ActionErrorCode),
      executionPhase (fun _ _ => .actionFailure c) (fun _ _ => false) id
        (fun _ => false) (fun _ => false) onePlan
        = .thrown (.actionErr c) { steps := [⟨0⟩], status := .failed, requiresAction := true } 3)
    ∧ (∀ (c : ActionErrorCode),
      executionPhase (fun a _ => if a < 2 then .actionFailure c else .success) (fun _ _ => false)
        id (fun _ => false) (fun _ => false) onePlan
        = .success { steps := [⟨0⟩], status := .completed, requiresAction := true } 3)
    ∧ executionPhase (fun _ _ => .otherFailure) (fun _ _ => false) id
        (fun _ => false) (fun _ => false) onePlan
        = .thrown .systemErr { steps := [⟨0⟩], status := .failed, requiresAction := true } 1
    ∧ (∀ (c : ActionErrorCode),
      executionPhase (fun a _ => if a < 2 then .actionFailure c else .success) (fun _ _ => false)
        (fun l => ⟨9⟩ :: l) (fun _ => false) (fun _ => false) onePlan
        = .success { steps := [⟨9⟩, ⟨9⟩, ⟨0⟩], status := .completed, requiresAction := true } 3)
    ∧ (∀ (execOnce : Nat → Plan → Plan × Option ExecError) (adjust : Plan → Plan)
        (cPre cPost : Nat → Bool) (plan : Plan),
        (retryLoop execOnce adjust cPre cPost MAX_RETRIES 0 plan).attemptsMade ≤ 3) := by
  refine ⟨fun c => rfl, fun c => rfl, rfl, fun c => rfl, ?_⟩
  intro execOnce adjust cPre cPost plan
  have h := retryLoop_attempts_le execOnce adjust cPre cPost MAX_RETRIES 0 plan
  simpa [MAX_RETRIES] using h

/-- Witness for C2: the scenarios instantiated at the `RESOURCE_MISSING`
kind, and the attempt bound at a concrete loop. -/
theorem C2_bounded_retry_recovery_witness :
    executionPhase (fun _ _ => .actionFailure .RESOURCE_MISSING) (fun _ _ => false) id
      (fun _ => false) (fun _ => false) onePlan
      = .thrown (.actionErr .RESOURCE_MISSING)
          { steps := [⟨0⟩], status := .failed, requiresAction := true } 3
    ∧ executionPhase (fun a _ => if a < 2 then .actionFailure .NAVIGATION_FAILED else .success)
        (fun _ _ => false) id (fun _ => false) (fun _ => false) onePlan
        = .success { steps := [⟨0⟩], status := .completed, requiresAction := true } 3
    ∧ (retryLoop (fun _ p => (p, some (.actionErr .UNKNOWN))) id
        (fun _ => false) (fun _ => false) MAX_RETRIES 0 onePlan).attemptsMade ≤ 3 :=
  ⟨C2_bounded_retry_recovery.1 .RESOURCE_MISSING,
   C2_bounded_retry_recovery.2.1 .NAVIGATION_FAILED,
   C2_bounded_retry_recovery.2.2.2.2 _ _ _ _ _⟩

/-- `drain` is atomic: it returns exactly the buffered events and leaves the
buffer empty, in one step. -/
theorem drain_spec (b : RawEventBuffer) :
    b.drain.1 = b.queue ∧ b.drain.2.queue = [] := by
  unfold RawEventBuffer.drain
  by_cases h : b.queue.isEmpty
  · have h2 : b.queue = [] := List.isEmpty_iff.mp h
    simp [h, h2]
  · simp [h]

/-- The ingest loop invokes `ingest` on every event of the batch exactly
once, in order, whether or not individual ingests throw. -/
theorem ingestLoop_attempted {σ : Type} (ingestOne : σ → RawEvent → Except σ σ) :
    ∀ (l : List RawEvent) (st : σ) (acc : List RawEvent),
      (ingestLoop ingestOne st acc l).2 = acc ++ l := by
  intro l
  induction l with
  | nil => intro st acc; simp [ingestLoop]
  | cons e rest ih =>
    intro st acc
    rw [ingestLoop]
    rw [ih]
    simp

/-- On an initialized pipeline, one `tick` ingests exactly the buffered
events, empties the buffer, and preserves the `initialized` flag. -/
theorem tick_spec {σ : Type} (tickDet : σ → σ) (ingestOne : σ → RawEvent → Except σ σ)
    (p : PerceptionPipeline σ) (h : p.initialized = true) :
    (p.tick tickDet ingestOne).2 = p.buffer.queue
    ∧ (p.tick tickDet ingestOne).1.buffer.queue = []
    ∧ (p.tick tickDet ingestOne).1.initialized = true := by
  have htick : p.tick tickDet ingestOne
      = ({ p with
            buffer := p.buffer.drain.2,
            det := (ingestLoop ingestOne (tickDet p.det) [] p.buffer.drain.1).1 },
         (ingestLoop ingestOne (tickDet p.det) [] p.buffer.drain.1).2) := by
    simp [PerceptionPipeline.tick, h]
  have hq := drain_spec p.buffer
  refine ⟨?_, ?_, ?_⟩
  · rw [htick]
    rw [ingestLoop_attempted]
    simpa using hq.1
  · rw [htick]
    exact hq.2
  · rw [htick]
    exact h

/-- C9: `PerceptionPipeline.tick` drains the whole buffer atomically (`drain`
returns the buffered events and clears the buffer in one step), ingests each
drained event exactly once, leaves the buffer empty, and an event collected
after the drain is picked up by the next tick — never lost, never ingested
twice; a throwing ingest is caught and does not prevent the ingestion of the
remaining events of the batch (concretely: a detector counting successful
ingests that throws on event 1 still processes events 0 and 2 of the batch
`[0, 1, 2]`). -/
theorem C9_tick_atomic_drain_fault_isolation :
    (∀ b : RawEventBuffer, b.drain.1 = b.queue ∧ b.drain.2.queue = [])
    ∧ (∀ (σ : Type) (tickDet : σ → σ) (ingestOne : σ → RawEvent → Except σ σ)
        (p : PerceptionPipeline σ) (e : RawEvent), p.initialized = true →
        (p.tick tickDet ingestOne).2 = p.buffer.queue
        ∧ (p.tick tickDet ingestOne).1.buffer.queue = []
        ∧ (((p.tick tickDet ingestOne).1.collect e).tick tickDet ingestOne).2 = [e])
    ∧ ingestLoop (fun (n : Nat) (ev : RawEvent) => if ev = 1 then .error n else .ok (n + 1))
        0 [] [0, 1, 2] = (2, [0, 1, 2]) := by
  refine ⟨drain_spec, ?_, rfl⟩
  intro σ tickDet ingestOne p e h
  have h1 := tick_spec tickDet ingestOne p h
  refine ⟨h1.1, h1.2.1, ?_⟩
  have hcollect : (p.tick tickDet ingestOne).1.collect e
      = { (p.tick tickDet ingestOne).1 with
            buffer := (p.tick tickDet ingestOne).1.buffer.push e } := by
    simp [PerceptionPipeline.collect, h1.2.2]
  have hinit2 : ((p.tick tickDet ingestOne).1.collect e).initialized = true := by
    rw [hcollect]
    exact h1.2.2
  have hbq : ((p.tick tickDet ingestOne).1.collect e).buffer.queue = [e] := by
    rw [hcollect]
    simp [RawEventBuffer.push, h1.2.1]
  have h2 := tick_spec tickDet ingestOne ((p.tick tickDet ingestOne).1.collect e) hinit2
  rw [h2.1, hbq]

/-- Witness for C9: a two-event buffer on an initialized pipeline with a
pass-through detector is drained in one tick, and a later collect is seen
by the following tick only. -/
theorem C9_tick_atomic_drain_fault_isolation_witness :
    ((PerceptionPipeline.mk true ⟨[4, 5]⟩ 0).tick id (fun n _ => .ok n)).2 = [4, 5]
    ∧ ((PerceptionPipeline.mk true ⟨[4, 5]⟩ 0).tick id (fun n _ => .ok n)).1.buffer.queue = []
    ∧ ((((PerceptionPipeline.mk true ⟨[4, 5]⟩ 0).tick id
          (fun n _ => .ok n)).1.collect 6).tick id (fun n _ => .ok n)).2 = [6] := by
  have h := C9_tick_atomic_drain_fault_isolation.2.1 Nat id (fun n _ => .ok n)
    (PerceptionPipeline.mk true ⟨[4, 5]⟩ 0) 6 rfl
  exact ⟨h.1, h.2.1, h.2.2⟩

/-- Every event produced by one dispatch callback carries that callback's
instruction index. -/
theorem runOne_index_eq (cancelledAt fine : Nat → Bool) (i : Nat) :
    ∀ ev ∈ runOne cancelledAt fine i, ev.index = i := by
  intro ev hev
  unfold runOne at hev
  by_cases hc : cancelledAt i = true
  · rw [if_pos hc] at hev
    simp at hev
  · rw [if_neg hc] at hev
    by_cases hf : fine i = true
    · rw [if_pos hf] at hev
      simp at hev
      rcases hev with rfl | rfl <;> rfl
    · rw [if_neg hf] at hev
      simp at hev
      rcases hev with rfl | rfl <;> rfl

/-- C10: in a batch dispatched by `executeActions` with a cancellation token,
an instruction whose dispatch begins after the token is already cancelled is
skipped silently — no `action:started`, `action:completed` or
`action:failed` event carries its index, so the decision loop receives no
feedback for it — while every other instruction of the batch is still
dispatched: its `action:started` is emitted, followed by exactly one of
`action:completed` (on success) or `action:failed` (on a throw). -/
theorem C10_cancelled_actions_skipped_silently :
    ∀ (actions : List ActionInstruction) (cancelledAt fine : Nat → Bool)
      (evs : List ActionEvent),
      executeActions true actions cancelledAt fine = some evs →
      (∀ i, cancelledAt i = true →
        evs.filter (fun ev => ev.index = i) = [] ∧ i ∉ feedbackIndices evs)
      ∧ (∀ j, j < actions.length → cancelledAt j = false →
        ActionEvent.startedEv j ∈ evs
        ∧ (fine j = true →
            ActionEvent.completedEv j ∈ evs ∧ ActionEvent.failedEv j ∉ evs)
        ∧ (fine j = false →
            ActionEvent.failedEv j ∈ evs ∧ ActionEvent.completedEv j ∉ evs)) := by
  intro actions cancelledAt fine evs hexec
  have hevs : evs = (List.range actions.length).flatMap (runOne cancelledAt fine) := by
    simpa [executeActions] using hexec.symm
  have hmem : ∀ ev ∈ evs, ∃ k, k < actions.length ∧ ev ∈ runOne cancelledAt fine k := by
    intro ev hev
    rw [hevs] at hev
    rcases List.mem_flatMap.mp hev with ⟨k, hk, hevk⟩
    exact ⟨k, List.mem_range.mp hk, hevk⟩
  have hnotc : ∀ i, cancelledAt i = true → ∀ ev ∈ evs, ev.index ≠ i := by
    intro i hc ev hev hidx
    rcases hmem ev hev with ⟨k, _, hevk⟩
    have hk : k = i := by rw [← runOne_index_eq cancelledAt fine k ev hevk, hidx]
    rw [hk] at hevk
    unfold runOne at hevk
    rw [if_pos hc] at hevk
    simp at hevk
  constructor
  · intro i hc
    constructor
    · rw [List.filter_eq_nil_iff]
      intro ev hev
      simpa using hnotc i hc ev hev
    · intro hifb
      rcases List.mem_filterMap.mp hifb with ⟨ev, hev, hfev⟩
      have : ev.index = i := by
        cases ev with
        | startedEv k => simp at hfev
        | completedEv k =>
          simp [feedbackIndices] at hfev
          simpa [ActionEvent.index] using hfev
        | failedEv k =>
          simp [feedbackIndices] at hfev
          simpa [ActionEvent.index] using hfev
      exact hnotc i hc ev hev this
  · intro j hj hcj
    have hrmem : ∀ ev ∈ runOne cancelledAt fine j, ev ∈ evs := by
      intro ev hev
      rw [hevs]
      exact List.mem_flatMap.mpr ⟨j, List.mem_range.mpr hj, hev⟩
    have honly : ∀ ev, ev ∈ evs → ev.index = j → ev ∈ runOne cancelledAt fine j := by
      intro ev hev hidx
      rcases hmem ev hev with ⟨k, _, hevk⟩
      have hk : k = j := by rw [← runOne_index_eq cancelledAt fine k ev hevk, hidx]
      rw [hk] at hevk
      exact hevk
    refine ⟨?_, ?_, ?_⟩
    · apply hrmem
      unfold runOne
      rw [if_neg (by simp [hcj])]
      simp
    · intro hfj
      constructor
      · apply hrmem
        unfold runOne
        rw [if_neg (by simp [hcj]), if_pos hfj]
        simp
      · intro habs
        have h2 := honly _ habs rfl
        unfold runOne at h2
        rw [if_neg (by simp [hcj]), if_pos hfj] at h2
        simp at h2
    · intro hfj
      constructor
      · apply hrmem
        unfold runOne
        rw [if_neg (by simp [hcj]), if_neg (by simp [hfj])]
        simp
      · intro habs
        have h2 := honly _ habs rfl
        unfold runOne at h2
        rw [if_neg (by simp [hcj]), if_neg (by simp [hfj])] at h2
        simp at h2

/-- Witness for C10: a three-instruction batch whose middle instruction sees
an already-cancelled token: the middle instruction emits nothing and gets no
feedback, the outer two still run to completion. -/
theorem C10_cancelled_actions_skipped_silently_witness :
    executeActions true [.physical, .chat, .physical] (fun i => i == 1) (fun _ => true)
      = some [.startedEv 0, .completedEv 0, .startedEv 2, .completedEv 2]
    ∧ ([.startedEv 0, .completedEv 0, .startedEv 2,
        .completedEv 2] : List ActionEvent).filter (fun ev => ev.index = 1) = []
    ∧ 1 ∉ feedbackIndices [.startedEv 0, .completedEv 0, .startedEv 2, .completedEv 2]
    ∧ ActionEvent.startedEv 0
        ∈ ([.startedEv 0, .completedEv 0, .startedEv 2, .completedEv 2] : List ActionEvent) := by
  have hexec : executeActions true [.physical, .chat, .physical] (fun i => i == 1)
      (fun _ => true)
      = some [.startedEv 0, .completedEv 0, .startedEv 2, .completedEv 2] := by rfl
  have h := C10_cancelled_actions_skipped_silently [.physical, .chat, .physical]
    (fun i => i == 1) (fun _ => true)
    [.startedEv 0, .completedEv 0, .startedEv 2, .completedEv 2] hexec
  have h1 := h.1 1 rfl
  have h0 := h.2 0 (by norm_num) rfl
  exact ⟨hexec, h1.1, h1.2, h0.1⟩

end AiriMC
